import Mathlib

/-!
Shallow embedding of src/lib/steganography/steganography.c.

Bytes are modelled as natural numbers (uint8_t values), buffers as lists of
naturals, and nullable C pointers as Option. The C double computation in
get_max_capacity (pixel_count * 0.3 followed by a size_t cast) is modelled
exactly: IEEE-754 binary64 round-to-nearest-even is expressed on dyadic
numerators via roundAt / rne53 below, and the constant 0.3 is modelled by its
exact binary64 value 5404319552844595 / 2 ^ 54.
-/

set_option maxRecDepth 100000

namespace Steg

/-- Model of the loop body of xor_encrypt: for each index i the byte data[i]
is replaced by data[i] xor password[i mod pass_len]. The parameter i is the
current index. -/
def xorLoop (password : List Nat) (i : Nat) : List Nat → List Nat
  | [] => []
  | b :: rest => (b ^^^ password.getD (i % password.length) 0) :: xorLoop password (i + 1) rest

/-- Model of xor_encrypt from steganography.c: if the password is empty the
data is returned unchanged, otherwise each byte is xored with the cyclically
repeated password. -/
def xor_encrypt (data : List Nat) (password : List Nat) : List Nat :=
  if password.length = 0 then data else xorLoop password 0 data

/-- Fuel-indexed bit length: number of binary digits of n, valid when
n < 2 ^ fuel. Structural recursion on the fuel so that the kernel can
evaluate it. -/
def blenAux : Nat → Nat → Nat
  | 0, _ => 0
  | fuel + 1, n => if n = 0 then 0 else blenAux fuel (n / 2) + 1

/-- Bit length of n, exact for every n < 2 ^ 128, which covers every value
arising in get_max_capacity for size_t inputs. -/
def blen (n : Nat) : Nat := blenAux 128 n

/-- Round the natural number N to the nearest multiple of 2 ^ s, ties going
to the multiple with an even quotient. This is the mantissa rounding step of
IEEE-754 round-to-nearest-even applied to the numerator of a dyadic. -/
def roundAt (N s : Nat) : Nat :=
  (if N % 2 ^ s < 2 ^ (s - 1) then N / 2 ^ s
   else if 2 ^ (s - 1) < N % 2 ^ s then N / 2 ^ s + 1
   else if N / 2 ^ s % 2 = 0 then N / 2 ^ s else N / 2 ^ s + 1) * 2 ^ s

/-- Round a nonnegative dyadic numerator N to 53 significant bits: the
binary64 round-to-nearest-even of the value N * 2 ^ e for any fixed scale e
(normal range). When N has at most 53 bits it is returned exactly. -/
def rne53 (N : Nat) : Nat := roundAt N (blen N - 53)

/-- The exact binary64 value of the C literal 0.3 (MAX_CAPACITY_FACTOR) is
mant03 / 2 ^ 54. -/
def mant03 : Nat := 5404319552844595

/-- Model of get_max_capacity from steganography.c. Images smaller than 100
bytes give capacity 0; otherwise pixel_count = image_size / 3 (size_t
division), the double product pixel_count * 0.3 is formed with both
conversions rounded to nearest (rne53), and the cast back to size_t
truncates, which on the dyadic numerator is division by 2 ^ 54. -/
def get_max_capacity (image_size : Nat) : Nat :=
  if image_size < 100 then 0
  else rne53 (rne53 (image_size / 3) * mant03) / 2 ^ 54

/-- Model of the SteganographyResult struct from steganography.h. The C
pointers error_message and data are nullable, hence Option. -/
structure SteganographyResult where
  success : Bool
  error_message : Option String
  data : Option (List Nat)
  data_length : Nat
  width : Int
  height : Int
deriving Repr, DecidableEq

/-- Model of encode_lsb_dct from steganography.c. Null image or message data
yields the invalid-input failure; then the message is encrypted (the result
is unused by the stub and freed), the capacity is computed, and a message
with message_length + 8 > capacity is rejected; otherwise the stub returns a
copy of the image unchanged. -/
def encode_lsb_dct (image_data : Option (List Nat)) (message : Option (List Nat))
    (password : List Nat) : SteganographyResult :=
  match image_data, message with
  | none, _ =>
      { success := false, error_message := some "Invalid input data",
        data := none, data_length := 0, width := 0, height := 0 }
  | _, none =>
      { success := false, error_message := some "Invalid input data",
        data := none, data_length := 0, width := 0, height := 0 }
  | some img, some msg =>
      let _encrypted := xor_encrypt msg password
      if msg.length + 8 > get_max_capacity img.length then
        { success := false, error_message := some "Message too large for image capacity",
          data := none, data_length := 0, width := 0, height := 0 }
      else
        { success := true, error_message := none,
          data := some img, data_length := img.length, width := 0, height := 0 }

/-- The byte values of the fixed C string "Decoded secret message" returned
by the decode stub. -/
def demo_message : List Nat :=
  [68, 101, 99, 111, 100, 101, 100, 32, 115, 101, 99, 114, 101, 116, 32,
   109, 101, 115, 115, 97, 103, 101]

/-- Model of decode_lsb_dct from steganography.c. A null image pointer yields
the invalid-image failure; otherwise the stub ignores the image entirely and
returns the fixed demo message xored with the password. -/
def decode_lsb_dct (image_data : Option (List Nat)) (password : List Nat) :
    SteganographyResult :=
  match image_data with
  | none =>
      { success := false, error_message := some "Invalid image data",
        data := none, data_length := 0, width := 0, height := 0 }
  | some _ =>
      { success := true, error_message := none,
        data := some (xor_encrypt demo_message password),
        data_length := demo_message.length, width := 0, height := 0 }

/-! Basic facts about the cipher. -/

theorem xorLoop_xorLoop (password : List Nat) (d : List Nat) :
    ∀ i, xorLoop password i (xorLoop password i d) = d := by
  induction d with
  | nil => intro i; rfl
  | cons b rest ih =>
      intro i
      simp [xorLoop, ih (i + 1), Nat.xor_assoc, Nat.xor_self]

/-- Claim C3: applying the payload cipher twice with the same non-empty key
restores the original byte sequence. -/
theorem cipher_involution (d k : List Nat) (hk : k ≠ []) :
    xor_encrypt (xor_encrypt d k) k = d := by
  have hlen : k.length ≠ 0 := by simpa using hk
  simp [xor_encrypt, hlen, xorLoop_xorLoop]

/-- Witness for cipher_involution at a concrete data list and key. -/
theorem cipher_involution_witness :
    ([5, 200] : List Nat) ≠ [] ∧
      xor_encrypt (xor_encrypt [1, 2, 3] [5, 200]) [5, 200] = [1, 2, 3] :=
  ⟨by decide, cipher_involution [1, 2, 3] [5, 200] (by decide)⟩

/-- Claim C9: the cipher with an empty key is a no-op for every byte
sequence, not an error. -/
theorem empty_key_noop (d : List Nat) : xor_encrypt d [] = d := by
  simp [xor_encrypt]

/-- Claim C10: extraction does not depend on the carrier in any way: for any
two non-null carriers and the same password, decode_lsb_dct returns the
identical result, bytes and length included. -/
theorem extract_carrier_independent (c1 c2 : List Nat) (password : List Nat) :
    decode_lsb_dct (some c1) password = decode_lsb_dct (some c2) password := rfl

/-- Claim C5: whenever the message length plus the 8-byte header exceeds the
computed capacity, encode_lsb_dct fails with the payload-too-large error and
the returned data buffer is absent. -/
theorem payload_too_large_rejected (img msg password : List Nat)
    (h : get_max_capacity img.length < msg.length + 8) :
    encode_lsb_dct (some img) (some msg) password =
      { success := false, error_message := some "Message too large for image capacity",
        data := none, data_length := 0, width := 0, height := 0 } := by
  simp [encode_lsb_dct, h]

/-- Witness for payload_too_large_rejected: a 300-byte carrier has capacity
30, and a 23-byte message needs 31 slots, one more than the capacity. -/
theorem payload_too_large_witness :
    get_max_capacity (List.replicate 300 (0 : Nat)).length <
        (List.replicate 23 (0 : Nat)).length + 8 ∧
      encode_lsb_dct (some (List.replicate 300 0)) (some (List.replicate 23 0)) [] =
        { success := false, error_message := some "Message too large for image capacity",
          data := none, data_length := 0, width := 0, height := 0 } :=
  ⟨by decide, payload_too_large_rejected _ _ _ (by decide)⟩

/-! The embed/extract round trip and related end-to-end claims. -/

/-- Claim C1 (code bug): at a concrete carrier with ample capacity, embedding
the 2-byte payload [104, 105] with the empty password succeeds, yet running
the extractor on the embedded carrier does not return the payload: the decode
stub always returns the fixed demo message, so the round trip fails. -/
theorem roundtrip_code_bug :
    (encode_lsb_dct (some (List.replicate 300 0)) (some [104, 105]) []).success = true ∧
      (decode_lsb_dct
          (encode_lsb_dct (some (List.replicate 300 0)) (some [104, 105]) []).data
          []).data ≠ some [104, 105] := by
  decide

/-- Claim C7 (code bug): with distinct passwords for the bytes of "correct"
and "wrong", choosing as payload the demo message xored with the wrong
password makes extraction under the wrong password succeed and return exactly
the original payload, which the claim forbids. -/
theorem wrong_key_code_bug :
    (encode_lsb_dct (some (List.replicate 300 0))
        (some (xor_encrypt demo_message [119, 114, 111, 110, 103]))
        [99, 111, 114, 114, 101, 99, 116]).success = true ∧
      (decode_lsb_dct
          (encode_lsb_dct (some (List.replicate 300 0))
              (some (xor_encrypt demo_message [119, 114, 111, 110, 103]))
              [99, 111, 114, 114, 101, 99, 116]).data
          [119, 114, 111, 110, 103]).success = true ∧
      (decode_lsb_dct
          (encode_lsb_dct (some (List.replicate 300 0))
              (some (xor_encrypt demo_message [119, 114, 111, 110, 103]))
              [99, 111, 114, 114, 101, 99, 116]).data
          [119, 114, 111, 110, 103]).data =
        some (xor_encrypt demo_message [119, 114, 111, 110, 103]) := by
  decide

/-! Input validation. -/

/-- Counterexample for claim C8: an empty (zero-length) payload with a
non-null 300-byte carrier is accepted by encode_lsb_dct, with no
invalid-input failure, contradicting the claim that empty payloads are
rejected with InvalidInput. -/
theorem empty_payload_accepted :
    (encode_lsb_dct (some (List.replicate 300 0)) (some []) [120]).success = true ∧
      (encode_lsb_dct (some (List.replicate 300 0)) (some []) [120]).error_message ≠
        some "Invalid input data" := by
  decide

/-- Claim C8 amended: encode_lsb_dct reports the invalid-input error exactly
when the carrier or the payload is null; an empty (zero-length, non-null)
carrier is instead rejected with the payload-too-large error, and an empty
payload is accepted exactly when the carrier capacity covers the 8-byte
header. -/
theorem invalid_input_amended (img msg : Option (List Nat)) (password : List Nat) :
    ((encode_lsb_dct img msg password).error_message = some "Invalid input data" ↔
        img = none ∨ msg = none) ∧
      (∀ m : List Nat, (encode_lsb_dct (some []) (some m) password).error_message =
        some "Message too large for image capacity") ∧
      (∀ c : List Nat, ((encode_lsb_dct (some c) (some []) password).success = true ↔
        8 ≤ get_max_capacity c.length)) := by
  refine ⟨?_, ?_, ?_⟩
  · match img, msg with
    | none, _ => simp [encode_lsb_dct]
    | some img, none => simp [encode_lsb_dct]
    | some img, some msg =>
        simp only [encode_lsb_dct]
        split <;> simp
  · intro m
    have h : get_max_capacity 0 = 0 := by decide
    simp only [encode_lsb_dct, List.length_nil, h]
    rw [if_pos (by omega)]
  · intro c
    simp only [encode_lsb_dct, List.length_nil, Nat.zero_add]
    split <;> rename_i h <;> simp <;> omega

/-! Bit-length and rounding lemmas for the capacity model. -/

theorem blenAux_zero (f : Nat) : blenAux f 0 = 0 := by
  cases f <;> rfl

theorem blenAux_spec : ∀ f n : Nat, n < 2 ^ f →
    n < 2 ^ blenAux f n ∧ (n ≠ 0 → 2 ^ (blenAux f n - 1) ≤ n) := by
  intro f
  induction f with
  | zero =>
      intro n hn
      have hn0 : n = 0 := by simpa using hn
      subst hn0
      exact ⟨by simp [blenAux_zero], fun h => absurd rfl h⟩
  | succ f ih =>
      intro n hn
      by_cases h0 : n = 0
      · subst h0
        exact ⟨by simp [blenAux_zero], fun h => absurd rfl h⟩
      · have hdiv : n / 2 < 2 ^ f := by
          have hp : (2 : Nat) ^ (f + 1) = 2 ^ f * 2 := by rw [pow_succ]
          omega
        obtain ⟨h1, h2⟩ := ih (n / 2) hdiv
        have hba : blenAux (f + 1) n = blenAux f (n / 2) + 1 := by
          simp [blenAux, h0]
        rw [hba]
        constructor
        · have hp : (2 : Nat) ^ (blenAux f (n / 2) + 1) = 2 * 2 ^ blenAux f (n / 2) := by
            rw [pow_succ]; ring
          omega
        · intro _
          simp only [Nat.add_sub_cancel]
          by_cases hd0 : n / 2 = 0
          · have hn1 : n = 1 := by omega
            rw [hd0, blenAux_zero]
            simp [hn1]
          · have hL1 : 1 ≤ blenAux f (n / 2) := by
              rcases Nat.eq_zero_or_pos (blenAux f (n / 2)) with hz | hpos
              · rw [hz, pow_zero] at h1; omega
              · exact hpos
            have h2x := h2 hd0
            have heq : (2 : Nat) ^ blenAux f (n / 2) = 2 ^ (blenAux f (n / 2) - 1) * 2 := by
              rw [← pow_succ]
              congr 1
              omega
            omega

theorem blen_zero : blen 0 = 0 := blenAux_zero 128

theorem blen_lt (n : Nat) (h : n < 2 ^ 128) : n < 2 ^ blen n :=
  (blenAux_spec 128 n h).1

theorem blen_base (n : Nat) (h : n < 2 ^ 128) (h0 : n ≠ 0) : 2 ^ (blen n - 1) ≤ n :=
  (blenAux_spec 128 n h).2 h0

theorem blen_le_of_lt {n k : Nat} (hk : n < 2 ^ k) (h : n < 2 ^ 128) : blen n ≤ k := by
  by_cases h0 : n = 0
  · subst h0; simp [blen_zero]
  · have h1 := blen_base n h h0
    have h2 : (2 : Nat) ^ (blen n - 1) < 2 ^ k := lt_of_le_of_lt h1 hk
    have h3 := (Nat.pow_lt_pow_iff_right (by omega : 1 < 2)).mp h2
    omega

theorem blen_mono {m n : Nat} (hmn : m ≤ n) (hn : n < 2 ^ 128) : blen m ≤ blen n := by
  by_cases h0 : m = 0
  · subst h0; simp [blen_zero]
  · have hm : m < 2 ^ 128 := lt_of_le_of_lt hmn hn
    have h1 := blen_base m hm h0
    have h2 := blen_lt n hn
    have h3 : (2 : Nat) ^ (blen m - 1) < 2 ^ blen n := by omega
    have h4 := (Nat.pow_lt_pow_iff_right (by omega : 1 < 2)).mp h3
    omega

theorem roundAt_ge (N s : Nat) : N / 2 ^ s * 2 ^ s ≤ roundAt N s := by
  unfold roundAt
  split_ifs <;> exact Nat.mul_le_mul (by omega) (le_refl _)

theorem roundAt_le (N s : Nat) : roundAt N s ≤ (N / 2 ^ s + 1) * 2 ^ s := by
  unfold roundAt
  split_ifs <;> exact Nat.mul_le_mul (by omega) (le_refl _)

theorem roundAt_le_pow {N s L : Nat} (hN : N < 2 ^ L) (hs : s ≤ L) :
    roundAt N s ≤ 2 ^ L := by
  have hpow : (2 : Nat) ^ (L - s) * 2 ^ s = 2 ^ L := by
    rw [← pow_add]; congr 1; omega
  have hq : N / 2 ^ s < 2 ^ (L - s) := by
    apply Nat.div_lt_of_lt_mul
    rw [mul_comm, hpow]
    exact hN
  calc roundAt N s ≤ (N / 2 ^ s + 1) * 2 ^ s := roundAt_le N s
    _ ≤ 2 ^ (L - s) * 2 ^ s := Nat.mul_le_mul (by omega) (le_refl _)
    _ = 2 ^ L := hpow

theorem pow_le_roundAt {N s K : Nat} (hK : 2 ^ K ≤ N) (hs : s ≤ K) :
    2 ^ K ≤ roundAt N s := by
  have hpow : (2 : Nat) ^ (K - s) * 2 ^ s = 2 ^ K := by
    rw [← pow_add]; congr 1; omega
  have hq : 2 ^ (K - s) ≤ N / 2 ^ s := by
    rw [Nat.le_div_iff_mul_le (Nat.pos_pow_of_pos s (by omega))]
    rw [hpow]
    exact hK
  calc (2 : Nat) ^ K = 2 ^ (K - s) * 2 ^ s := hpow.symm
    _ ≤ N / 2 ^ s * 2 ^ s := Nat.mul_le_mul hq (le_refl _)
    _ ≤ roundAt N s := roundAt_ge N s

theorem roundAt_mono_same {M N : Nat} (s : Nat) (h : M ≤ N) :
    roundAt M s ≤ roundAt N s := by
  rcases Nat.lt_or_ge (M / 2 ^ s) (N / 2 ^ s) with hq | hq
  · calc roundAt M s ≤ (M / 2 ^ s + 1) * 2 ^ s := roundAt_le M s
      _ ≤ N / 2 ^ s * 2 ^ s := Nat.mul_le_mul (by omega) (le_refl _)
      _ ≤ roundAt N s := roundAt_ge N s
  · have hqe : M / 2 ^ s = N / 2 ^ s := le_antisymm (Nat.div_le_div_right h) hq
    have e1 := Nat.div_add_mod M (2 ^ s)
    have e2 := Nat.div_add_mod N (2 ^ s)
    rw [hqe] at e1
    unfold roundAt
    rw [hqe]
    split_ifs <;> exact Nat.mul_le_mul (by omega) (le_refl _)

theorem rne53_mono {M N : Nat} (h : M ≤ N) (hN : N < 2 ^ 128) :
    rne53 M ≤ rne53 N := by
  have hM : M < 2 ^ 128 := lt_of_le_of_lt h hN
  have hbl : blen M ≤ blen N := blen_mono h hN
  rcases eq_or_lt_of_le hbl with he | hlt
  · unfold rne53
    rw [he]
    exact roundAt_mono_same _ h
  · have hN0 : N ≠ 0 := by
      intro h0
      subst h0
      rw [blen_zero] at hlt
      omega
    have h1 : rne53 M ≤ 2 ^ blen M :=
      roundAt_le_pow (blen_lt M hM) (by omega)
    have h2 : (2 : Nat) ^ (blen N - 1) ≤ rne53 N :=
      pow_le_roundAt (blen_base N hN hN0) (by omega)
    have h3 : (2 : Nat) ^ blen M ≤ 2 ^ (blen N - 1) :=
      Nat.pow_le_pow_right (by omega) (by omega)
    omega

/-- Claim C6: the capacity function is non-decreasing in carrier size (sizes
being size_t values, below 2 ^ 64), and a carrier below the 100-byte minimum
always has capacity exactly zero. -/
theorem capacity_monotone (s1 s2 : Nat) (h1 : s1 ≤ s2) (h2 : s2 < 2 ^ 64) :
    get_max_capacity s1 ≤ get_max_capacity s2 ∧
      ∀ t, t < 100 → get_max_capacity t = 0 := by
  constructor
  · by_cases hs1 : s1 < 100
    · simp [get_max_capacity, hs1]
    · have hs2 : ¬ s2 < 100 := by omega
      simp only [get_max_capacity, if_neg hs1, if_neg hs2]
      have hp : s1 / 3 ≤ s2 / 3 := Nat.div_le_div_right h1
      have hlt64 : s2 / 3 < 2 ^ 64 := lt_of_le_of_lt (Nat.div_le_self _ _) h2
      have hpow : (2 : Nat) ^ 64 < 2 ^ 128 :=
        Nat.pow_lt_pow_right (by omega) (by omega)
      have ha : rne53 (s1 / 3) ≤ rne53 (s2 / 3) := rne53_mono hp (by omega)
      have hblen : blen (s2 / 3) ≤ 64 := blen_le_of_lt hlt64 (by omega)
      have hb : rne53 (s2 / 3) ≤ 2 ^ 64 := roundAt_le_pow hlt64 (by omega)
      have hc : rne53 (s1 / 3) * mant03 ≤ rne53 (s2 / 3) * mant03 :=
        Nat.mul_le_mul ha (le_refl _)
      have h64 : (2 : Nat) ^ 64 * mant03 < 2 ^ 128 := by norm_num [mant03]
      have hbb : rne53 (s2 / 3) * mant03 ≤ 2 ^ 64 * mant03 :=
        Nat.mul_le_mul hb (le_refl _)
      have hd : rne53 (rne53 (s1 / 3) * mant03) ≤ rne53 (rne53 (s2 / 3) * mant03) :=
        rne53_mono hc (by omega)
      exact Nat.div_le_div_right hd
  · intro t ht
    simp [get_max_capacity, ht]

/-- Witness for capacity_monotone at the concrete sizes 50 and 30000. -/
theorem capacity_monotone_witness :
    50 ≤ 30000 ∧ (30000 : Nat) < 2 ^ 64 ∧
      (get_max_capacity 50 ≤ get_max_capacity 30000 ∧
        ∀ t, t < 100 → get_max_capacity t = 0) :=
  ⟨by decide, by decide, capacity_monotone 50 30000 (by decide) (by decide)⟩

/-! The concrete capacity scenario. -/

/-- Counterexample for claim C2: the capacity of a 30000-byte carrier is not
900. -/
theorem capacity_not_900 : get_max_capacity 30000 ≠ 900 := by decide

/-- Claim C2 amended: a 30000-byte carrier (10000 RGB pixels) has capacity
10000 * 0.3 = 3000, not 900; embedding a 10-byte payload with password
"test123" succeeds, and embedding a 200-byte payload also succeeds, since
200 + 8 = 208 does not exceed 3000. -/
theorem concrete_scenario_amended (img msg10 msg200 : List Nat)
    (himg : img.length = 30000) (h10 : msg10.length = 10) (h200 : msg200.length = 200) :
    get_max_capacity 30000 = 3000 ∧
      (encode_lsb_dct (some img) (some msg10)
        [116, 101, 115, 116, 49, 50, 51]).success = true ∧
      (encode_lsb_dct (some img) (some msg200)
        [116, 101, 115, 116, 49, 50, 51]).success = true := by
  have hcap : get_max_capacity 30000 = 3000 := by decide
  refine ⟨hcap, ?_, ?_⟩ <;>
    simp [encode_lsb_dct, himg, h10, h200, hcap]

/-- Witness for concrete_scenario_amended at concrete replicate carriers and
payloads. -/
theorem concrete_scenario_witness :
    (List.replicate 30000 (0 : Nat)).length = 30000 ∧
      (List.replicate 10 (0 : Nat)).length = 10 ∧
      (List.replicate 200 (0 : Nat)).length = 200 ∧
      (get_max_capacity 30000 = 3000 ∧
        (encode_lsb_dct (some (List.replicate 30000 0)) (some (List.replicate 10 0))
          [116, 101, 115, 116, 49, 50, 51]).success = true ∧
        (encode_lsb_dct (some (List.replicate 30000 0)) (some (List.replicate 200 0))
          [116, 101, 115, 116, 49, 50, 51]).success = true) :=
  ⟨List.length_replicate 30000 0, List.length_replicate 10 0, List.length_replicate 200 0,
    concrete_scenario_amended _ _ _ (List.length_replicate 30000 0)
      (List.length_replicate 10 0) (List.length_replicate 200 0)⟩

end Steg
